import Mathlib

/-!
Formal model of the WEB_Organic_Buoyancy_Solver hydrostatic core:
the geometry integrators `calculateMeshProperties` and
`calculateSubmergedProperties` (src/unnamed/part_001) and the per-frame
equilibrium solver (src/components/Solver.tsx).

Numbers are modelled by exact rationals (ℚ).  The JavaScript source computes
with IEEE doubles; rounding is not modelled.  A JavaScript division whose
result is non-finite (NaN or ±Infinity) is modelled by `none` in an
`Option`, as explained at each definition that needs it.
-/

set_option maxRecDepth 4000000

/-- A 3-component vector with rational coordinates, modelling THREE.Vector3. -/
@[ext]
structure Vec3 where
  x : ℚ
  y : ℚ
  z : ℚ
deriving DecidableEq, Repr

instance : Zero Vec3 := ⟨⟨0, 0, 0⟩⟩

instance : Add Vec3 := ⟨fun a b => ⟨a.x + b.x, a.y + b.y, a.z + b.z⟩⟩

instance : Neg Vec3 := ⟨fun a => ⟨-a.x, -a.y, -a.z⟩⟩

instance : Sub Vec3 := ⟨fun a b => ⟨a.x - b.x, a.y - b.y, a.z - b.z⟩⟩

instance : SMul ℚ Vec3 := ⟨fun q a => ⟨q * a.x, q * a.y, q * a.z⟩⟩

instance : AddCommGroup Vec3 where
  add_assoc a b c := by ext <;> exact add_assoc _ _ _
  zero_add a := by ext <;> exact zero_add _
  add_zero a := by ext <;> exact add_zero _
  add_comm a b := by ext <;> exact add_comm _ _
  neg_add_cancel a := by ext <;> exact neg_add_cancel _
  sub_eq_add_neg a b := by ext <;> exact sub_eq_add_neg _ _
  nsmul := nsmulRec
  zsmul := zsmulRec

/-- Dot product, modelling THREE.Vector3.dot. -/
def Vec3.dot (a b : Vec3) : ℚ :=
  a.x * b.x + a.y * b.y + a.z * b.z

/-- Cross product, modelling THREE.Vector3.cross. -/
def Vec3.cross (a b : Vec3) : Vec3 :=
  ⟨a.y * b.z - a.z * b.y, a.z * b.x - a.x * b.z, a.x * b.y - a.y * b.x⟩

/-- Componentwise division by a scalar, modelling the componentwise
`cx / volume` divisions in the source (with ℚ semantics; the divisor is
nonzero at every place this is used under a guard). -/
def Vec3.sdiv (a : Vec3) (q : ℚ) : Vec3 :=
  ⟨a.x / q, a.y / q, a.z / q⟩

/-- A 3×3 matrix (the rotation/linear block of a THREE.Matrix4). -/
structure Mat3 where
  a11 : ℚ
  a12 : ℚ
  a13 : ℚ
  a21 : ℚ
  a22 : ℚ
  a23 : ℚ
  a31 : ℚ
  a32 : ℚ
  a33 : ℚ
deriving DecidableEq, Repr

/-- Matrix action on a vector. -/
def Mat3.mulVec (m : Mat3) (v : Vec3) : Vec3 :=
  ⟨m.a11 * v.x + m.a12 * v.y + m.a13 * v.z,
   m.a21 * v.x + m.a22 * v.y + m.a23 * v.z,
   m.a31 * v.x + m.a32 * v.y + m.a33 * v.z⟩

/-- Determinant of a 3×3 matrix. -/
def Mat3.det (m : Mat3) : ℚ :=
  m.a11 * (m.a22 * m.a33 - m.a23 * m.a32)
    - m.a12 * (m.a21 * m.a33 - m.a23 * m.a31)
    + m.a13 * (m.a21 * m.a32 - m.a22 * m.a31)

/-- The identity 3×3 matrix. -/
def idMat3 : Mat3 := ⟨1, 0, 0, 0, 1, 0, 0, 0, 1⟩

/-- An affine world transform: linear block plus translation.  This models a
THREE.Matrix4 whose bottom row is `(0,0,0,1)` — the only kind the solver
ever builds (`updateMatrixWorld` composes translations and rotations), for
which `Vector3.applyMatrix4` computes exactly `lin * v + tr` (the
perspective divide is by `w = 1`). -/
structure Affine where
  lin : Mat3
  tr : Vec3
deriving DecidableEq, Repr

/-- Application of the world transform to a point
(THREE.Vector3.applyMatrix4 with unit bottom row). -/
def Affine.apply (M : Affine) (v : Vec3) : Vec3 :=
  M.lin.mulVec v + M.tr

/-- The identity world transform. -/
def idAffine : Affine := ⟨idMat3, 0⟩

/-- A triangle: three vertices. -/
abbrev Tri := Vec3 × Vec3 × Vec3

/-- A triangle mesh, modelling THREE.BufferGeometry as consumed by the
source: an ordered vertex-position sequence and an optional index sequence
(`geometry.getAttribute('position')` and `geometry.getIndex()`). -/
structure Geometry where
  positions : List Vec3
  index : Option (List ℕ)
deriving DecidableEq, Repr

/-- Vertex lookup (`fromBufferAttribute`).  Out-of-range access is given the
default origin; the data-model invariant (index values are valid offsets,
counts divisible by 3) makes this case unreachable in the claims. -/
def Geometry.vertexAt (g : Geometry) (i : ℕ) : Vec3 :=
  g.positions.getD i 0

/-- Number of faces: `index.count / 3` when indexed, else `posAttr.count / 3`
(part_001 line 16).  Natural division; the invariant keeps counts divisible
by 3. -/
def Geometry.faceCount (g : Geometry) : ℕ :=
  (match g.index with
   | some ix => ix.length
   | none => g.positions.length) / 3

/-- The `i`-th triangle: indices `i*3, i*3+1, i*3+2`, dereferenced through
the index when present (part_001 lines 23-36 and 107-116). -/
def Geometry.triAt (g : Geometry) (i : ℕ) : Tri :=
  match g.index with
  | some ix =>
      (g.vertexAt (ix.getD (i * 3) 0), g.vertexAt (ix.getD (i * 3 + 1) 0),
        g.vertexAt (ix.getD (i * 3 + 2) 0))
  | none => (g.vertexAt (i * 3), g.vertexAt (i * 3 + 1), g.vertexAt (i * 3 + 2))

/-- The triangles of the mesh in iteration order.  Both source loops
(`calculateMeshProperties` and `calculateSubmergedProperties`) traverse
exactly this sequence. -/
def Geometry.getTriangles (g : Geometry) : List Tri :=
  (List.range g.faceCount).map g.triAt

/-- The clipping tolerance, `const EPSILON = 1e-5` (part_001 line 4). -/
def EPSILON : ℚ := 1e-5

/-- The expanded-determinant signed tetrahedron volume of
`calculateMeshProperties` (part_001 lines 39-46):
`(1/6) * (-v321 + v231 + v312 - v132 - v213 + v123)`. -/
def tetTerm (p1 p2 p3 : Vec3) : ℚ :=
  (1 / 6) * (-(p3.x * p2.y * p1.z) + p2.x * p3.y * p1.z + p3.x * p1.y * p2.z
    - p1.x * p3.y * p2.z - p2.x * p1.y * p3.z + p1.x * p2.y * p3.z)

/-- The clipper's signed tetrahedron volume
(`addTriangleContribution`, part_001 line 85): `dot(p1, cross(p2, p3)) / 6`. -/
def dotCrossTerm (p1 p2 p3 : Vec3) : ℚ :=
  p1.dot (p2.cross p3) / 6

/-- `tetTerm` on a `Tri`. -/
def tetVolTerm (T : Tri) : ℚ := tetTerm T.1 T.2.1 T.2.2

/-- `dotCrossTerm` on a `Tri`. -/
def volTerm (T : Tri) : ℚ := dotCrossTerm T.1 T.2.1 T.2.2

/-- Moment contribution of one tetrahedron: its signed volume times its
centroid `(p1+p2+p3)/4` (part_001 lines 91-93:
`momentX += vol * (p1.x+p2.x+p3.x) / 4` and the y, z analogues). -/
def momTerm (T : Tri) : Vec3 := (volTerm T / 4) • (T.1 + T.2.1 + T.2.2)

/-- Moment contribution used by `calculateMeshProperties`
(part_001 lines 50-52), with the expanded-determinant term. -/
def tetMomTerm (T : Tri) : Vec3 := (tetVolTerm T / 4) • (T.1 + T.2.1 + T.2.2)

/-- Sum of signed tetrahedron volumes of a triangle list (clipper form). -/
def sumVol (ts : List Tri) : ℚ := (ts.map volTerm).sum

/-- Sum of tetrahedron moments of a triangle list (clipper form). -/
def sumMom (ts : List Tri) : Vec3 := (ts.map momTerm).sum

/-- The accumulated signed volume `volume` of `calculateMeshProperties`
(part_001 line 47), before `Math.abs`. -/
def meshSignedVolume (g : Geometry) : ℚ := (g.getTriangles.map tetVolTerm).sum

/-- The accumulated centroid moment `(cx, cy, cz)` of
`calculateMeshProperties` (part_001 lines 50-52). -/
def meshMoment (g : Geometry) : Vec3 := (g.getTriangles.map tetMomTerm).sum

/-- `calculateMeshProperties` (part_001 lines 10-57).  Returns the absolute
volume and the centroid `(cx/volume, cy/volume, cz/volume)`.  The source
performs this division unconditionally; when the accumulated signed volume
is zero, the JavaScript result is non-finite (NaN or ±Infinity) in every
component, which is modelled by `none`. -/
def calculateMeshProperties (g : Geometry) : ℚ × Option Vec3 :=
  (|meshSignedVolume g|,
    if meshSignedVolume g = 0 then none
    else some ((meshMoment g).sdiv (meshSignedVolume g)))

/-- Intersection of segment `p1 p2` with the plane `z = 0`
(part_001 lines 97-104): `t = -p1.z / (p2.z - p1.z)`. -/
def intersectPlane (p1 p2 : Vec3) : Vec3 :=
  let t := -p1.z / (p2.z - p1.z)
  ⟨p1.x + t * (p2.x - p1.x), p1.y + t * (p2.y - p1.y), 0⟩

/-- The per-triangle clipping of `calculateSubmergedProperties`
(part_001 lines 123-178), returning the list of sub-triangles that the
source feeds to `addTriangleContribution`, in call order.  The case
analysis, vertex identification, and winding-preserving orderings mirror
the source branch for branch. -/
def clipTriangle (vA vB vC : Vec3) : List Tri :=
  let countUnder : ℕ :=
    (if vA.z < 0 then 1 else 0) + (if vB.z < 0 then 1 else 0) + (if vC.z < 0 then 1 else 0)
  if countUnder = 0 then []
  else if countUnder = 3 then [(vA, vB, vC)]
  else if countUnder = 1 then
    if vA.z < 0 then
      [(vA, intersectPlane vA vB, intersectPlane vA vC)]
    else if vB.z < 0 then
      [(intersectPlane vB vA, vB, intersectPlane vB vC)]
    else
      [(intersectPlane vC vA, intersectPlane vC vB, vC)]
  else
    if ¬vA.z < 0 then
      [(intersectPlane vA vB, vB, vC), (intersectPlane vA vB, vC, intersectPlane vA vC)]
    else if ¬vB.z < 0 then
      [(vA, intersectPlane vB vA, intersectPlane vB vC), (vA, intersectPlane vB vC, vC)]
    else
      [(vA, vB, intersectPlane vC vB), (vA, intersectPlane vC vB, intersectPlane vC vA)]

/-- All sub-triangles contributed by the clipper for mesh `g` under world
transform `W`: each mesh triangle is transformed to world space
(part_001 lines 118-121) and clipped. -/
def clippedTris (g : Geometry) (W : Affine) : List Tri :=
  (g.getTriangles.map fun T =>
    clipTriangle (W.apply T.1) (W.apply T.2.1) (W.apply T.2.2)).flatten

/-- The accumulated signed submerged volume `totalVolume`
(part_001 lines 68, 87). -/
def totalVolume (g : Geometry) (W : Affine) : ℚ := sumVol (clippedTris g W)

/-- The accumulated submerged moment `(momentX, momentY, momentZ)`
(part_001 lines 69-71, 91-93). -/
def clipMoment (g : Geometry) (W : Affine) : Vec3 := sumMom (clippedTris g W)

/-- `calculateSubmergedProperties` (part_001 lines 63-190): if the
accumulated signed volume is below `EPSILON` in absolute value, return zero
volume and the origin (lines 181-184); otherwise the absolute volume and
`moment / totalVolume` (lines 186-189). -/
def calculateSubmergedProperties (g : Geometry) (W : Affine) : ℚ × Vec3 :=
  if |totalVolume g W| < EPSILON then (0, 0)
  else (|totalVolume g W|, (clipMoment g W).sdiv (totalVolume g W))

/-- Convergence-rate damping for heave
(`DAMPING_TRANSLATION = 0.1`, Solver.tsx line 30). -/
def DAMPING_TRANSLATION : ℚ := 0.1

/-- Convergence-rate damping for rotation
(`DAMPING_ROTATION = 0.05`, Solver.tsx line 31). -/
def DAMPING_ROTATION : ℚ := 0.05

/-- Inner iterations per frame (`MAX_ITERATIONS = 5`, Solver.tsx line 32). -/
def MAX_ITERATIONS : ℕ := 5

/-- Gravitational acceleration (`GRAVITY = 9.81`, Solver.tsx line 33). -/
def GRAVITY : ℚ := 9.81

/-- The source's clamp pattern `Math.max(lo, Math.min(hi, v))`
(Solver.tsx lines 82, 99, 100). -/
def clampQ (lo hi v : ℚ) : ℚ := max lo (min hi v)

/-- The solver's persistent pose state: vertical displacement `positionZ`
and the two rotations `rotationX`, `rotationY` (Solver.tsx lines 25-27). -/
structure Pose where
  z : ℚ
  rx : ℚ
  ry : ℚ
deriving DecidableEq, Repr

/-- Pose state at solver attach: the three `useRef(0)` initialisations
(Solver.tsx lines 25-27).  A new solver instance is mounted whenever the
mesh changes (`key={geometry?.uuid}`, part_002 line 326), so an attaching
mesh starts from this state. -/
def initialPose : Pose := ⟨0, 0, 0⟩

/-- The world transform built from the current pose (Solver.tsx lines
58-61): translation by `(0, 0, z)` composed with the Euler `XYZ` rotation
by `(rx, ry, 0)`.  The rotation block involves sines and cosines, which are
not rational, so it is abstracted as a parameter `rot`; every claim below
holds for an arbitrary rotation block. -/
def worldOf (rot : ℚ → ℚ → Mat3) (p : Pose) : Affine :=
  ⟨rot p.rx p.ry, ⟨0, 0, p.z⟩⟩

/-- Net vertical force (Solver.tsx lines 72-74):
`buoyancyForce - weightForce` with
`buoyancyForce = submergedVol * waterDensity * GRAVITY` and
`weightForce = totalMass * GRAVITY`. -/
def netForceZOf (g : Geometry) (W : Affine) (waterDensity totalMass : ℚ) : ℚ :=
  (calculateSubmergedProperties g W).1 * waterDensity * GRAVITY - totalMass * GRAVITY

/-- Horizontal COG-to-COB offset, x component (Solver.tsx line 91):
`dx = cogWorld.x - cobWorld.x`. -/
def dxOf (g : Geometry) (W : Affine) (cogLocal : Vec3) : ℚ :=
  (W.apply cogLocal).x - (calculateSubmergedProperties g W).2.x

/-- Horizontal COG-to-COB offset, y component (Solver.tsx line 92):
`dy = cogWorld.y - cobWorld.y`. -/
def dyOf (g : Geometry) (W : Affine) (cogLocal : Vec3) : ℚ :=
  (W.apply cogLocal).y - (calculateSubmergedProperties g W).2.y

/-- One inner solver iteration (Solver.tsx lines 56-103): heave step
`clamp(netForceZ * 0.00005, -0.5, 0.5)` scaled by `DAMPING_TRANSLATION`,
pitch step `clamp(dy * 0.02, -0.05, 0.05)` subtracted from `rx` after
scaling by `DAMPING_ROTATION`, roll step `clamp(dx * 0.02, -0.05, 0.05)`
added to `ry` after scaling by `DAMPING_ROTATION`.  The world matrix is the
one built from the pose at the start of the iteration (the source updates
`matrixWorld` only at the top of the loop). -/
def solverIterate (rot : ℚ → ℚ → Mat3) (g : Geometry) (waterDensity totalMass : ℚ)
    (cogLocal : Vec3) (p : Pose) : Pose :=
  let W := worldOf rot p
  ⟨p.z + clampQ (-0.5) 0.5 (netForceZOf g W waterDensity totalMass * 0.00005)
      * DAMPING_TRANSLATION,
   p.rx - clampQ (-0.05) 0.05 (dyOf g W cogLocal * 0.02) * DAMPING_ROTATION,
   p.ry + clampQ (-0.05) 0.05 (dxOf g W cogLocal * 0.02) * DAMPING_ROTATION⟩

/-- An external load as consumed by the solver (src/unnamed/part_003,
`ExternalWeight`): only `mass` and `position` enter the physics
(Solver.tsx lines 44-48); `id`, `color`, `rotation`, `stlUrl`, `scale` are
presentation-only. -/
structure ExternalWeight where
  mass : ℚ
  position : Vec3
deriving DecidableEq, Repr

/-- Combined mass (Solver.tsx lines 40-48):
`totalMass = baseProperties.mass + Σ w.mass`. -/
def totalMassOf (baseMass : ℚ) (weights : List ExternalWeight) : ℚ :=
  baseMass + (weights.map ExternalWeight.mass).sum

/-- The moment sum (Solver.tsx lines 41-48):
`baseProperties.cog * mass + Σ w.position * w.mass`.  The base centroid is
an `Option`: it is `none` when upstream `calculateMeshProperties` divided
by a zero volume, making every component NaN; NaN times a finite mass and
plus finite weight moments stays NaN, hence `map`. -/
def momentSumOf (baseMass : ℚ) (baseCog : Option Vec3) (weights : List ExternalWeight) :
    Option Vec3 :=
  baseCog.map fun c =>
    baseMass • c + (weights.map fun w => w.mass • w.position).sum

/-- The combined local COG (Solver.tsx line 50):
`momentSum.divideScalar(totalMass)`.  The division is unguarded in the
source: when `totalMass = 0` every JavaScript component is non-finite
(`0/0 = NaN`, `s/0 = ±Infinity`), modelled by `none`; a NaN moment sum also
stays NaN. -/
def combinedCOGLocal (baseMass : ℚ) (baseCog : Option Vec3)
    (weights : List ExternalWeight) : Option Vec3 :=
  match momentSumOf baseMass baseCog weights with
  | none => none
  | some s =>
      if totalMassOf baseMass weights = 0 then none
      else some (s.sdiv (totalMassOf baseMass weights))

/-- Pose state whose components may have become non-finite (NaN), modelled
by `none`. -/
structure PoseJS where
  z : Option ℚ
  rx : Option ℚ
  ry : Option ℚ
deriving DecidableEq, Repr

/-- One `useFrame` tick of the solver (Solver.tsx lines 35-118) starting
from a finite pose.  `if (!meshGeometry || !targetRef.current) return;`
(line 36) skips the tick only when the mesh is absent; there is no guard on
a degenerate (zero-volume) mesh.  When the combined local COG is finite the
tick runs `MAX_ITERATIONS` plain iterations.  When it is non-finite (NaN,
which happens in particular when `totalMass = 0`, a division by zero), the
first iteration still updates `z` finitely but drives `rx` and `ry` to NaN
through `dy`/`dx` and the NaN-propagating clamp; from the second iteration
on the Euler angles are NaN, so every world-space vertex coordinate is NaN,
every `z < 0` comparison is false, the clip accumulates nothing and the
epsilon guard yields submerged volume `0` and origin COB — hence each of
the remaining four iterations adds the heave step computed from
`netForceZ = 0 * waterDensity * GRAVITY - totalMass * GRAVITY` while `rx`,
`ry` stay NaN.  That JavaScript NaN arithmetic is folded into the `none`
branch below. -/
def solverTick (rot : ℚ → ℚ → Mat3) (meshGeometry : Option Geometry) (baseMass : ℚ)
    (baseCog : Option Vec3) (weights : List ExternalWeight) (waterDensity : ℚ)
    (p : Pose) : PoseJS :=
  match meshGeometry with
  | none => ⟨some p.z, some p.rx, some p.ry⟩
  | some g =>
    let totalMass := totalMassOf baseMass weights
    match combinedCOGLocal baseMass baseCog weights with
    | some c =>
        let q := Nat.iterate (solverIterate rot g waterDensity totalMass c) MAX_ITERATIONS p
        ⟨some q.z, some q.rx, some q.ry⟩
    | none =>
        let W := worldOf rot p
        let h1 := clampQ (-0.5) 0.5 (netForceZOf g W waterDensity totalMass * 0.00005)
        let hRest := clampQ (-0.5) 0.5
          ((0 * waterDensity * GRAVITY - totalMass * GRAVITY) * 0.00005)
        ⟨some (p.z + h1 * DAMPING_TRANSLATION + 4 * (hRest * DAMPING_TRANSLATION)),
         none, none⟩

/-- The reference definition of the mesh integral from the specification:
per triangle the signed tetrahedron term `dot(p1, cross(p2, p3)) / 6`, the
volume the absolute value of the signed sum, the centroid the
volume-weighted average of the tetrahedron centroids
`Σ (termᵢ • (p1+p2+p3)/4) / Σ termᵢ` (undefined — non-finite — when the
signed sum is zero). -/
def referenceMeshProperties (g : Geometry) : ℚ × Option Vec3 :=
  (|sumVol g.getTriangles|,
    if sumVol g.getTriangles = 0 then none
    else some ((sumMom g.getTriangles).sdiv (sumVol g.getTriangles)))

/-- A rotation-block parameter returning the identity: the world transform
of an unrotated pose. -/
def rotId : ℚ → ℚ → Mat3 := fun _ _ => idMat3

/-- A closed cube mesh of side 2 centred at the origin: 12 triangles with
outward winding, as a flat (non-indexed) triangle soup. -/
def cube2 : Geometry :=
  { positions :=
      [⟨-1, -1, -1⟩, ⟨-1, 1, -1⟩, ⟨1, 1, -1⟩, ⟨-1, -1, -1⟩, ⟨1, 1, -1⟩, ⟨1, -1, -1⟩,
       ⟨-1, -1, 1⟩, ⟨1, -1, 1⟩, ⟨1, 1, 1⟩, ⟨-1, -1, 1⟩, ⟨1, 1, 1⟩, ⟨-1, 1, 1⟩,
       ⟨1, -1, -1⟩, ⟨1, 1, -1⟩, ⟨1, 1, 1⟩, ⟨1, -1, -1⟩, ⟨1, 1, 1⟩, ⟨1, -1, 1⟩,
       ⟨-1, -1, -1⟩, ⟨-1, -1, 1⟩, ⟨-1, 1, 1⟩, ⟨-1, -1, -1⟩, ⟨-1, 1, 1⟩, ⟨-1, 1, -1⟩,
       ⟨-1, -1, -1⟩, ⟨1, -1, -1⟩, ⟨1, -1, 1⟩, ⟨-1, -1, -1⟩, ⟨1, -1, 1⟩, ⟨-1, -1, 1⟩,
       ⟨-1, 1, -1⟩, ⟨1, 1, 1⟩, ⟨1, 1, -1⟩, ⟨-1, 1, -1⟩, ⟨-1, 1, 1⟩, ⟨1, 1, 1⟩],
    index := none }

/-- A degenerate mesh: a single flat triangle in the plane `z = 0`, whose
enclosed volume is zero. -/
def flatTriangleGeo : Geometry :=
  { positions := [⟨0, 0, 0⟩, ⟨1, 0, 0⟩, ⟨0, 1, 0⟩], index := none }

/-- The empty mesh: no vertices, no triangles. -/
def emptyGeo : Geometry := { positions := [], index := none }

/-- Map a vertex transformation over a triangle. -/
def triMap (f : Vec3 → Vec3) (T : Tri) : Tri := (f T.1, f T.2.1, f T.2.2)

/-- The edge-normal sum `p1×p2 + p2×p3 + p3×p1` of a triangle (twice its
vector area). -/
def wOf (T : Tri) : Vec3 :=
  T.1.cross T.2.1 + T.2.1.cross T.2.2 + T.2.2.cross T.1

/-- The three directed boundary edges of a triangle. -/
def triEdges (T : Tri) : List (Vec3 × Vec3) :=
  [(T.1, T.2.1), (T.2.1, T.2.2), (T.2.2, T.1)]

/-- All directed boundary edges of a triangle list. -/
def edgeList : List Tri → List (Vec3 × Vec3)
  | [] => []
  | T :: ts => triEdges T ++ edgeList ts

/-- A triangle list is closed (watertight with consistent winding) when its
directed edges and their reverses form the same multiset: every directed
edge is matched by the same edge traversed the other way on a neighbouring
triangle. -/
def IsClosedMesh (ts : List Tri) : Prop :=
  (edgeList ts : Multiset (Vec3 × Vec3)) = (edgeList ts).map Prod.swap

/-- Closedness of a concrete triangle list is decidable. -/
instance (ts : List Tri) : Decidable (IsClosedMesh ts) := by
  unfold IsClosedMesh; infer_instance

/-- A world transform that lifts the object 10 units above the surface. -/
def liftAffine : Affine := ⟨idMat3, ⟨0, 0, 10⟩⟩

/-- A rigid world transform that sinks the object 10 units below the
surface. -/
def sinkAffine : Affine := ⟨idMat3, ⟨0, 0, -10⟩⟩

@[simp] lemma Vec3.zero_x : (0 : Vec3).x = 0 := rfl

@[simp] lemma Vec3.zero_y : (0 : Vec3).y = 0 := rfl

@[simp] lemma Vec3.zero_z : (0 : Vec3).z = 0 := rfl

@[simp] lemma Vec3.add_x (a b : Vec3) : (a + b).x = a.x + b.x := rfl

@[simp] lemma Vec3.add_y (a b : Vec3) : (a + b).y = a.y + b.y := rfl

@[simp] lemma Vec3.add_z (a b : Vec3) : (a + b).z = a.z + b.z := rfl

@[simp] lemma Vec3.neg_x (a : Vec3) : (-a).x = -a.x := rfl

@[simp] lemma Vec3.neg_y (a : Vec3) : (-a).y = -a.y := rfl

@[simp] lemma Vec3.neg_z (a : Vec3) : (-a).z = -a.z := rfl

@[simp] lemma Vec3.sub_x (a b : Vec3) : (a - b).x = a.x - b.x := rfl

@[simp] lemma Vec3.sub_y (a b : Vec3) : (a - b).y = a.y - b.y := rfl

@[simp] lemma Vec3.sub_z (a b : Vec3) : (a - b).z = a.z - b.z := rfl

@[simp] lemma Vec3.smul_x (q : ℚ) (a : Vec3) : (q • a).x = q * a.x := rfl

@[simp] lemma Vec3.smul_y (q : ℚ) (a : Vec3) : (q • a).y = q * a.y := rfl

@[simp] lemma Vec3.smul_z (q : ℚ) (a : Vec3) : (q • a).z = q * a.z := rfl

/-- Scalar multiplication distributes over vector addition. -/
lemma Vec3.smul_add' (c : ℚ) (u v : Vec3) : c • (u + v) = c • u + c • v := by
  ext <;> simp <;> ring

/-- Scalar addition distributes over scalar multiplication. -/
lemma Vec3.add_smul' (c d : ℚ) (u : Vec3) : (c + d) • u = c • u + d • u := by
  ext <;> simp <;> ring

/-- Scalar multiplication by zero. -/
lemma Vec3.zero_smul' (u : Vec3) : (0 : ℚ) • u = 0 := by
  ext <;> simp

/-- Scalar multiplication of the zero vector. -/
lemma Vec3.smul_zero' (c : ℚ) : c • (0 : Vec3) = 0 := by
  ext <;> simp

/-- Matrix action is additive. -/
lemma Mat3.mulVec_add (A : Mat3) (u v : Vec3) :
    A.mulVec (u + v) = A.mulVec u + A.mulVec v := by
  ext <;> simp [Mat3.mulVec] <;> ring

/-- Matrix action commutes with scalar multiplication. -/
lemma Mat3.mulVec_smul (A : Mat3) (c : ℚ) (u : Vec3) :
    A.mulVec (c • u) = c • A.mulVec u := by
  ext <;> simp [Mat3.mulVec] <;> ring

/-- Matrix action on the zero vector. -/
lemma Mat3.mulVec_zero (A : Mat3) : A.mulVec 0 = 0 := by
  ext <;> simp [Mat3.mulVec]

/-- Sum of a pointwise sum of two functions over a list. -/
lemma sum_map_add {α M : Type} [AddCommMonoid M] (l : List α) (f g : α → M) :
    (l.map fun a => f a + g a).sum = (l.map f).sum + (l.map g).sum := by
  induction l with
  | nil => simp
  | cons a l ih => simp [ih]; abel

/-- Sum of pointwise negation over a list. -/
lemma sum_map_neg {α M : Type} [AddCommGroup M] (l : List α) (f : α → M) :
    (l.map fun a => -f a).sum = -(l.map f).sum := by
  induction l with
  | nil => simp
  | cons a l ih => simp [ih]; abel

/-- Constant factor pulled out of a rational sum. -/
lemma sum_map_mul_left {α : Type} (l : List α) (c : ℚ) (f : α → ℚ) :
    (l.map fun a => c * f a).sum = c * (l.map f).sum := by
  induction l with
  | nil => simp
  | cons a l ih => simp [ih]; ring

/-- Sum of scalar multiples of a fixed vector. -/
lemma sum_map_smul_const {α : Type} (l : List α) (f : α → ℚ) (t : Vec3) :
    (l.map fun a => f a • t).sum = (l.map f).sum • t := by
  induction l with
  | nil => simp [Vec3.zero_smul']
  | cons a l ih => simp [ih, Vec3.add_smul']

/-- Constant scalar pulled out of a vector sum. -/
lemma sum_map_smul_left {α : Type} (l : List α) (c : ℚ) (f : α → Vec3) :
    (l.map fun a => c • f a).sum = c • (l.map f).sum := by
  induction l with
  | nil => simp [Vec3.smul_zero']
  | cons a l ih => simp [ih, Vec3.smul_add']

/-- Matrix action pulled out of a vector sum. -/
lemma sum_map_mulVec {α : Type} (A : Mat3) (l : List α) (f : α → Vec3) :
    (l.map fun a => A.mulVec (f a)).sum = A.mulVec (l.map f).sum := by
  induction l with
  | nil => simp [Mat3.mulVec_zero]
  | cons a l ih => simp [ih, Mat3.mulVec_add]

/-- Summing an edge function over `edgeList` equals summing the
per-triangle edge sums. -/
lemma sum_edgeList {M : Type} [AddCommMonoid M] (f : Vec3 × Vec3 → M) (ts : List Tri) :
    ((edgeList ts).map f).sum = (ts.map fun T => ((triEdges T).map f).sum).sum := by
  induction ts with
  | nil => simp [edgeList]
  | cons T ts ih => simp [edgeList, ih]

/-- The edges of a vertex-mapped triangle list are the mapped edges. -/
lemma edgeList_map (f : Vec3 → Vec3) (ts : List Tri) :
    edgeList (ts.map (triMap f)) = (edgeList ts).map (Prod.map f f) := by
  induction ts with
  | nil => simp [edgeList]
  | cons T ts ih =>
      obtain ⟨a, b, c⟩ := T
      simp [edgeList, ih, triEdges, triMap, Prod.map]

/-- Closedness is preserved by mapping the vertices. -/
lemma IsClosedMesh.vmap {ts : List Tri} (hc : IsClosedMesh ts) (f : Vec3 → Vec3) :
    IsClosedMesh (ts.map (triMap f)) := by
  unfold IsClosedMesh at hc ⊢
  rw [edgeList_map]
  have hswap : Prod.swap ∘ Prod.map f f = Prod.map f f ∘ Prod.swap := by
    funext e; cases e; rfl
  calc ((edgeList ts).map (Prod.map f f) : Multiset (Vec3 × Vec3))
      = ((edgeList ts : Multiset (Vec3 × Vec3))).map (Prod.map f f) := by
        simp
    _ = (((edgeList ts).map Prod.swap : List (Vec3 × Vec3)) :
          Multiset (Vec3 × Vec3)).map (Prod.map f f) := by rw [hc]
    _ = (((edgeList ts).map (Prod.map f f)).map Prod.swap : List (Vec3 × Vec3)) := by
        simp [List.map_map, hswap]

/-- Sum of a negation over a multiset. -/
lemma multiset_sum_map_neg {α M : Type} [AddCommGroup M] (s : Multiset α) (f : α → M) :
    (s.map fun a => -f a).sum = -(s.map f).sum := by
  induction s using Multiset.induction_on with
  | empty => simp
  | cons a s ih => simp [ih]; abel

/-- Over a closed triangle list, any edge-antisymmetric quantity sums to
zero: the reversed partner of every directed edge cancels it. -/
lemma closed_edge_sum_zero {M : Type} [AddCommGroup M]
    (h2 : ∀ x : M, x + x = 0 → x = 0) (f : Vec3 × Vec3 → M)
    (hf : ∀ a b : Vec3, f (b, a) = -f (a, b)) (ts : List Tri)
    (hc : IsClosedMesh ts) : ((edgeList ts).map f).sum = 0 := by
  have key : ((edgeList ts).map f).sum = -((edgeList ts).map f).sum := by
    calc ((edgeList ts).map f).sum
        = ((edgeList ts : Multiset (Vec3 × Vec3)).map f).sum := by simp
      _ = ((((edgeList ts).map Prod.swap : List (Vec3 × Vec3)) :
            Multiset (Vec3 × Vec3)).map f).sum := by rw [hc]
      _ = ((edgeList ts).map (f ∘ Prod.swap)).sum := by simp [List.map_map]
      _ = ((edgeList ts).map fun e => -f e).sum := by
          congr 1; apply List.map_congr_left; intro e _; cases e with
          | mk a b => exact hf a b
      _ = -((edgeList ts).map f).sum := sum_map_neg _ _
  exact h2 _ (eq_neg_iff_add_eq_zero.mp key)

/-- The two signed-volume formulas agree: the expanded determinant of
`calculateMeshProperties` equals the clipper's `dot(p1, cross(p2, p3))/6`. -/
lemma tetTerm_eq_dotCrossTerm (p1 p2 p3 : Vec3) :
    tetTerm p1 p2 p3 = dotCrossTerm p1 p2 p3 := by
  unfold tetTerm dotCrossTerm Vec3.dot Vec3.cross
  ring

/-- Triangle-level form of `tetTerm_eq_dotCrossTerm`. -/
lemma tetVolTerm_eq_volTerm (T : Tri) : tetVolTerm T = volTerm T :=
  tetTerm_eq_dotCrossTerm T.1 T.2.1 T.2.2

/-- Mesh-level moment terms agree as well. -/
lemma tetMomTerm_eq_momTerm (T : Tri) : tetMomTerm T = momTerm T := by
  unfold tetMomTerm momTerm
  rw [tetVolTerm_eq_volTerm]

/-- A linear map scales a signed tetrahedron volume by its determinant. -/
lemma volTerm_linear (A : Mat3) (T : Tri) :
    volTerm (triMap A.mulVec T) = A.det * volTerm T := by
  obtain ⟨p1, p2, p3⟩ := T
  simp only [volTerm, triMap, dotCrossTerm, Vec3.dot, Vec3.cross, Mat3.mulVec, Mat3.det]
  ring

/-- Translating a tetrahedron changes its signed volume by the flux of the
translation through the triangle's vector area. -/
lemma volTerm_translate (t : Vec3) (T : Tri) :
    volTerm (triMap (· + t) T) = volTerm T + t.dot (wOf T) / 6 := by
  obtain ⟨p1, p2, p3⟩ := T
  simp only [volTerm, triMap, dotCrossTerm, wOf, Vec3.dot, Vec3.cross, Vec3.add_x,
    Vec3.add_y, Vec3.add_z]
  ring

/-- A linear map takes a tetrahedron moment term to the determinant times
the mapped moment term. -/
lemma momTerm_linear (A : Mat3) (T : Tri) :
    momTerm (triMap A.mulVec T) = A.det • A.mulVec (momTerm T) := by
  obtain ⟨p1, p2, p3⟩ := T
  ext <;>
    simp only [momTerm, triMap, volTerm, dotCrossTerm, Vec3.dot, Vec3.cross, Mat3.mulVec,
      Mat3.det, Vec3.add_x, Vec3.add_y, Vec3.add_z, Vec3.smul_x, Vec3.smul_y, Vec3.smul_z] <;>
    ring

/-- Translation expansion of a tetrahedron moment term. -/
lemma momTerm_translate (t : Vec3) (T : Tri) :
    momTerm (triMap (· + t) T) =
      momTerm T + (3 / 4 * volTerm T) • t
        + (t.dot (wOf T) / 24) • (T.1 + T.2.1 + T.2.2)
        + (t.dot (wOf T) / 8) • t := by
  obtain ⟨p1, p2, p3⟩ := T
  ext <;>
    simp only [momTerm, triMap, volTerm, dotCrossTerm, wOf, Vec3.dot, Vec3.cross,
      Vec3.add_x, Vec3.add_y, Vec3.add_z, Vec3.smul_x, Vec3.smul_y, Vec3.smul_z] <;>
    ring

/-- Edge decomposition of the area flux `t ⬝ w(T) / 6`. -/
lemma flux_edge_decomp (t : Vec3) (T : Tri) :
    t.dot (wOf T) / 6 = ((triEdges T).map fun e => t.dot (e.1.cross e.2) / 6).sum := by
  obtain ⟨p1, p2, p3⟩ := T
  simp only [wOf, triEdges, Vec3.dot, Vec3.cross, Vec3.add_x, Vec3.add_y, Vec3.add_z,
    List.map_cons, List.map_nil, List.sum_cons, List.sum_nil]
  ring

/-- Edge decomposition of the first-moment flux: the per-triangle quantity
`(t ⬝ w(T)) • (p1+p2+p3) - (6 volTerm T) • t` is a sum of edge-antisymmetric
contributions. -/
lemma moment_flux_edge_decomp (t : Vec3) (T : Tri) :
    (t.dot (wOf T)) • (T.1 + T.2.1 + T.2.2) =
      ((triEdges T).map fun e => (t.dot (e.1.cross e.2)) • (e.1 + e.2)).sum
        + (6 * volTerm T) • t := by
  obtain ⟨p1, p2, p3⟩ := T
  ext <;>
    simp only [wOf, triEdges, volTerm, dotCrossTerm, Vec3.dot, Vec3.cross, List.map_cons,
      List.map_nil, List.sum_cons, List.sum_nil, Vec3.add_x, Vec3.add_y, Vec3.add_z,
      Vec3.smul_x, Vec3.smul_y, Vec3.smul_z, Vec3.zero_x, Vec3.zero_y, Vec3.zero_z,
      add_zero] <;>
    ring

/-- Rationals have no 2-torsion. -/
lemma rat_two_torsion_free (x : ℚ) (hx : x + x = 0) : x = 0 := by linarith

/-- Vectors have no 2-torsion. -/
lemma vec3_two_torsion_free (v : Vec3) (hv : v + v = 0) : v = 0 := by
  have hx := congrArg Vec3.x hv
  have hy := congrArg Vec3.y hv
  have hz := congrArg Vec3.z hv
  simp at hx hy hz
  ext <;> simp [hx, hy, hz]

/-- Over a closed triangle list the total area flux vanishes. -/
lemma closed_flux_sum_zero (t : Vec3) (ts : List Tri) (hc : IsClosedMesh ts) :
    (ts.map fun T => t.dot (wOf T) / 6).sum = 0 := by
  have h := closed_edge_sum_zero rat_two_torsion_free
    (fun e => t.dot (e.1.cross e.2) / 6)
    (fun a b => by simp only [Vec3.dot, Vec3.cross]; ring) ts hc
  rw [sum_edgeList] at h
  calc (ts.map fun T => t.dot (wOf T) / 6).sum
      = (ts.map fun T =>
          ((triEdges T).map fun e => t.dot (e.1.cross e.2) / 6).sum).sum := by
        congr 1; apply List.map_congr_left; intro T _; exact flux_edge_decomp t T
    _ = 0 := h

/-- Over a closed triangle list the total first-moment flux equals six
times the signed volume times the translation (the discrete divergence
theorem identity `∮ x (t⬝n) dA = t V` for polyhedra). -/
lemma closed_moment_flux_sum (t : Vec3) (ts : List Tri) (hc : IsClosedMesh ts) :
    (ts.map fun T => (t.dot (wOf T)) • (T.1 + T.2.1 + T.2.2)).sum =
      (6 * sumVol ts) • t := by
  have h := closed_edge_sum_zero vec3_two_torsion_free
    (fun e => (t.dot (e.1.cross e.2)) • (e.1 + e.2))
    (fun a b => by
      ext <;> simp only [Vec3.dot, Vec3.cross, Vec3.add_x, Vec3.add_y, Vec3.add_z,
        Vec3.smul_x, Vec3.smul_y, Vec3.smul_z, Vec3.neg_x, Vec3.neg_y, Vec3.neg_z] <;> ring)
    ts hc
  rw [sum_edgeList] at h
  calc (ts.map fun T => (t.dot (wOf T)) • (T.1 + T.2.1 + T.2.2)).sum
      = (ts.map fun T =>
          ((triEdges T).map fun e => (t.dot (e.1.cross e.2)) • (e.1 + e.2)).sum
            + (6 * volTerm T) • t).sum := by
        congr 1; apply List.map_congr_left; intro T _; exact moment_flux_edge_decomp t T
    _ = (ts.map fun T =>
          ((triEdges T).map fun e => (t.dot (e.1.cross e.2)) • (e.1 + e.2)).sum).sum
          + (ts.map fun T => (6 * volTerm T) • t).sum := sum_map_add _ _ _
    _ = (ts.map fun T => (6 * volTerm T) • t).sum := by rw [h, zero_add]
    _ = (ts.map fun T => 6 * volTerm T).sum • t := sum_map_smul_const _ _ _
    _ = (6 * sumVol ts) • t := by rw [sum_map_mul_left]; rfl

/-- Linear maps scale a triangle-list signed volume by the determinant. -/
lemma sumVol_map_linear (A : Mat3) (ts : List Tri) :
    sumVol (ts.map (triMap A.mulVec)) = A.det * sumVol ts := by
  unfold sumVol
  rw [List.map_map]
  calc ((ts.map (volTerm ∘ triMap A.mulVec)).sum)
      = (ts.map fun T => A.det * volTerm T).sum := by
        congr 1; apply List.map_congr_left; intro T _; exact volTerm_linear A T
    _ = A.det * (ts.map volTerm).sum := sum_map_mul_left _ _ _

/-- Translating a closed triangle list leaves its signed volume unchanged. -/
lemma sumVol_map_translate (t : Vec3) (ts : List Tri) (hc : IsClosedMesh ts) :
    sumVol (ts.map (triMap (· + t))) = sumVol ts := by
  unfold sumVol
  rw [List.map_map]
  calc ((ts.map (volTerm ∘ triMap (· + t))).sum)
      = (ts.map fun T => volTerm T + t.dot (wOf T) / 6).sum := by
        congr 1; apply List.map_congr_left; intro T _; exact volTerm_translate t T
    _ = (ts.map volTerm).sum + (ts.map fun T => t.dot (wOf T) / 6).sum := sum_map_add _ _ _
    _ = (ts.map volTerm).sum := by rw [closed_flux_sum_zero t ts hc, add_zero]

/-- Linear maps take a triangle-list moment to the determinant times the
mapped moment. -/
lemma sumMom_map_linear (A : Mat3) (ts : List Tri) :
    sumMom (ts.map (triMap A.mulVec)) = A.det • A.mulVec (sumMom ts) := by
  unfold sumMom
  rw [List.map_map]
  calc ((ts.map (momTerm ∘ triMap A.mulVec)).sum)
      = (ts.map fun T => A.det • A.mulVec (momTerm T)).sum := by
        congr 1; apply List.map_congr_left; intro T _; exact momTerm_linear A T
    _ = A.det • (ts.map fun T => A.mulVec (momTerm T)).sum := sum_map_smul_left _ _ _
    _ = A.det • A.mulVec (ts.map momTerm).sum := by rw [sum_map_mulVec]

/-- Translating a closed triangle list shifts its moment by the signed
volume times the translation. -/
lemma sumMom_map_translate (t : Vec3) (ts : List Tri) (hc : IsClosedMesh ts) :
    sumMom (ts.map (triMap (· + t))) = sumMom ts + sumVol ts • t := by
  unfold sumMom
  rw [List.map_map]
  have expand : (ts.map (momTerm ∘ triMap (· + t))).sum =
      (ts.map fun T =>
        momTerm T + ((3 / 4 * volTerm T) • t
          + ((t.dot (wOf T) / 24) • (T.1 + T.2.1 + T.2.2)
            + (t.dot (wOf T) / 8) • t))).sum := by
    congr 1; apply List.map_congr_left; intro T _
    rw [Function.comp_apply, momTerm_translate t T]
    abel
  rw [expand, sum_map_add, sum_map_add, sum_map_add]
  have h1 : (ts.map fun T => (3 / 4 * volTerm T) • t).sum = (3 / 4 * sumVol ts) • t := by
    rw [sum_map_smul_const, sum_map_mul_left]; rfl
  have h2 : (ts.map fun T => (t.dot (wOf T) / 24) • (T.1 + T.2.1 + T.2.2)).sum =
      (1 / 4 * sumVol ts) • t := by
    have scale : ∀ T : Tri, (t.dot (wOf T) / 24) • (T.1 + T.2.1 + T.2.2) =
        ((1 : ℚ) / 24) • ((t.dot (wOf T)) • (T.1 + T.2.1 + T.2.2)) := by
      intro T; ext <;> simp <;> ring
    calc (ts.map fun T => (t.dot (wOf T) / 24) • (T.1 + T.2.1 + T.2.2)).sum
        = (ts.map fun T =>
            ((1 : ℚ) / 24) • ((t.dot (wOf T)) • (T.1 + T.2.1 + T.2.2))).sum := by
          congr 1; exact List.map_congr_left fun T _ => scale T
      _ = ((1 : ℚ) / 24) • (ts.map fun T => (t.dot (wOf T)) • (T.1 + T.2.1 + T.2.2)).sum :=
          sum_map_smul_left _ _ _
      _ = ((1 : ℚ) / 24) • ((6 * sumVol ts) • t) := by rw [closed_moment_flux_sum t ts hc]
      _ = (1 / 4 * sumVol ts) • t := by ext <;> simp <;> ring
  have h3 : (ts.map fun T => (t.dot (wOf T) / 8) • t).sum = 0 := by
    have scale : ∀ T : Tri, (t.dot (wOf T) / 8) • t =
        ((6 : ℚ) / 8) • ((t.dot (wOf T) / 6) • t) := by
      intro T; ext <;> simp <;> ring
    calc (ts.map fun T => (t.dot (wOf T) / 8) • t).sum
        = (ts.map fun T => ((6 : ℚ) / 8) • ((t.dot (wOf T) / 6) • t)).sum := by
          congr 1; exact List.map_congr_left fun T _ => scale T
      _ = ((6 : ℚ) / 8) • (ts.map fun T => (t.dot (wOf T) / 6) • t).sum :=
          sum_map_smul_left _ _ _
      _ = ((6 : ℚ) / 8) • ((ts.map fun T => t.dot (wOf T) / 6).sum • t) := by
          rw [sum_map_smul_const]
      _ = 0 := by rw [closed_flux_sum_zero t ts hc, Vec3.zero_smul', Vec3.smul_zero']
  rw [h1, h2, h3, add_zero]
  have collect : (3 / 4 * sumVol ts) • t + (1 / 4 * sumVol ts) • t = sumVol ts • t := by
    ext <;> simp <;> ring
  rw [collect]

/-- Decomposition of an affine world transform on triangles: apply the
linear block, then translate. -/
lemma triMap_affine (W : Affine) (T : Tri) :
    triMap W.apply T = triMap (· + W.tr) (triMap W.lin.mulVec T) := rfl

/-- The signed volume of a closed triangle list is invariant under a
rigid (determinant-one affine) transform. -/
lemma sumVol_map_affine (W : Affine) (ts : List Tri) (hc : IsClosedMesh ts)
    (hdet : W.lin.det = 1) :
    sumVol (ts.map (triMap W.apply)) = sumVol ts := by
  have : ts.map (triMap W.apply) =
      (ts.map (triMap W.lin.mulVec)).map (triMap (· + W.tr)) := by
    rw [List.map_map]; exact List.map_congr_left fun T _ => triMap_affine W T
  rw [this, sumVol_map_translate _ _ (hc.vmap _), sumVol_map_linear, hdet, one_mul]

/-- The moment of a closed triangle list transforms equivariantly under a
rigid (determinant-one affine) transform. -/
lemma sumMom_map_affine (W : Affine) (ts : List Tri) (hc : IsClosedMesh ts)
    (hdet : W.lin.det = 1) :
    sumMom (ts.map (triMap W.apply)) =
      W.lin.mulVec (sumMom ts) + sumVol ts • W.tr := by
  have split : ts.map (triMap W.apply) =
      (ts.map (triMap W.lin.mulVec)).map (triMap (· + W.tr)) := by
    rw [List.map_map]; exact List.map_congr_left fun T _ => triMap_affine W T
  rw [split, sumMom_map_translate _ _ (hc.vmap _), sumMom_map_linear,
    sumVol_map_linear, hdet, one_mul]
  congr 1
  ext <;> simp

/-- The tolerance is positive. -/
lemma EPSILON_pos : 0 < EPSILON := by norm_num [EPSILON]

/-- The two accumulated signed volumes agree term by term. -/
lemma meshSignedVolume_eq_sumVol (g : Geometry) :
    meshSignedVolume g = sumVol g.getTriangles := by
  unfold meshSignedVolume sumVol
  congr 1
  exact List.map_congr_left fun T _ => tetVolTerm_eq_volTerm T

/-- The two accumulated moments agree term by term. -/
lemma meshMoment_eq_sumMom (g : Geometry) : meshMoment g = sumMom g.getTriangles := by
  unfold meshMoment sumMom
  congr 1
  exact List.map_congr_left fun T _ => tetMomTerm_eq_momTerm T

/-- A triangle with all three vertices strictly below the plane is kept
whole by the clipper (the `countUnder === 3` branch). -/
lemma clipTriangle_all_under (vA vB vC : Vec3) (hA : vA.z < 0) (hB : vB.z < 0)
    (hC : vC.z < 0) : clipTriangle vA vB vC = [(vA, vB, vC)] := by
  simp [clipTriangle, hA, hB, hC]

/-- A triangle with no vertex strictly below the plane is dropped by the
clipper (the `countUnder === 0` branch). -/
lemma clipTriangle_none_under (vA vB vC : Vec3) (hA : ¬vA.z < 0) (hB : ¬vB.z < 0)
    (hC : ¬vC.z < 0) : clipTriangle vA vB vC = [] := by
  simp [clipTriangle, hA, hB, hC]

/-- When every transformed triangle is strictly submerged, the clipper's
sub-triangle list is exactly the transformed triangle list. -/
lemma clippedTris_all_under (g : Geometry) (W : Affine)
    (hsub : ∀ T ∈ g.getTriangles, (W.apply T.1).z < 0 ∧ (W.apply T.2.1).z < 0 ∧
      (W.apply T.2.2).z < 0) :
    clippedTris g W = g.getTriangles.map (triMap W.apply) := by
  unfold clippedTris
  revert hsub
  induction g.getTriangles with
  | nil => intro _; simp
  | cons T ts ih =>
      intro hsub
      have hT := hsub T (List.mem_cons_self T ts)
      rw [List.map_cons, List.flatten_cons, List.map_cons,
        clipTriangle_all_under _ _ _ hT.1 hT.2.1 hT.2.2,
        ih fun S hS => hsub S (List.mem_cons_of_mem T hS)]
      rfl

/-- When no transformed vertex is strictly submerged, the clipper's
sub-triangle list is empty. -/
lemma clippedTris_none_under (g : Geometry) (W : Affine)
    (habove : ∀ T ∈ g.getTriangles, 0 ≤ (W.apply T.1).z ∧ 0 ≤ (W.apply T.2.1).z ∧
      0 ≤ (W.apply T.2.2).z) :
    clippedTris g W = [] := by
  unfold clippedTris
  revert habove
  induction g.getTriangles with
  | nil => intro _; simp
  | cons T ts ih =>
      intro habove
      have hT := habove T (List.mem_cons_self T ts)
      rw [List.map_cons, List.flatten_cons,
        clipTriangle_none_under _ _ _ (not_lt.mpr hT.1) (not_lt.mpr hT.2.1)
          (not_lt.mpr hT.2.2),
        ih fun S hS => habove S (List.mem_cons_of_mem T hS)]
      rfl

/-- Lower bound of the clamp pattern. -/
lemma le_clampQ (lo hi v : ℚ) : lo ≤ clampQ lo hi v := le_max_left _ _

/-- Upper bound of the clamp pattern. -/
lemma clampQ_le (lo hi v : ℚ) (h : lo ≤ hi) : clampQ lo hi v ≤ hi :=
  max_le h (min_le_left _ _)

/-- A symmetric clamp is bounded in absolute value. -/
lemma abs_clampQ_le (a v : ℚ) (ha : 0 ≤ a) : |clampQ (-a) a v| ≤ a :=
  abs_le.mpr ⟨le_clampQ _ _ _, clampQ_le _ _ _ (by linarith)⟩

/-- A symmetric clamp of a positive value is positive. -/
lemma clampQ_pos (a v : ℚ) (ha : 0 < a) (hv : 0 < v) : 0 < clampQ (-a) a v :=
  lt_max_iff.mpr (Or.inr (lt_min ha hv))

/-- C5: for every triangle mesh (indexed or flat), `calculateMeshProperties`
returns exactly the reference definition: per triangle the signed
tetrahedron term is `dot(p1, cross(p2, p3))/6`, the returned volume is the
absolute value of the sum of the terms, and the returned centroid is
`Σ (termᵢ • (p1+p2+p3)/4)` divided by the signed sum `Σ termᵢ`. -/
theorem C5_integrateMesh_matches_reference (g : Geometry) :
    calculateMeshProperties g = referenceMeshProperties g := by
  unfold calculateMeshProperties referenceMeshProperties
  rw [meshSignedVolume_eq_sumVol, meshMoment_eq_sumMom]

/-- C10: for every mesh and world transform the volume returned by
`calculateSubmergedProperties` is nonnegative and is never strictly between
`0` and `EPSILON = 1e-5`: it is either exactly `0` or at least `EPSILON`. -/
theorem C10_volume_never_in_epsilon_gap (g : Geometry) (W : Affine) :
    0 ≤ (calculateSubmergedProperties g W).1 ∧
    ((calculateSubmergedProperties g W).1 = 0 ∨
      EPSILON ≤ (calculateSubmergedProperties g W).1) := by
  unfold calculateSubmergedProperties
  split_ifs with h
  · exact ⟨le_refl 0, Or.inl rfl⟩
  · exact ⟨abs_nonneg _, Or.inr (not_lt.mp h)⟩

/-- C8: `calculateSubmergedProperties` returns zero volume and the origin
exactly when the accumulated signed volume is below `EPSILON` in absolute
value; otherwise it returns the absolute value of the accumulated sum and
the accumulated moment divided by the accumulated signed volume. -/
theorem C8_epsilon_guard_dichotomy (g : Geometry) (W : Affine) :
    (|totalVolume g W| < EPSILON →
      calculateSubmergedProperties g W = (0, (0 : Vec3))) ∧
    (¬|totalVolume g W| < EPSILON →
      calculateSubmergedProperties g W =
        (|totalVolume g W|, (clipMoment g W).sdiv (totalVolume g W))) ∧
    (((calculateSubmergedProperties g W).1 = 0 ∧
        (calculateSubmergedProperties g W).2 = 0) ↔ |totalVolume g W| < EPSILON) := by
  refine ⟨fun h => by unfold calculateSubmergedProperties; rw [if_pos h],
    fun h => by unfold calculateSubmergedProperties; rw [if_neg h], ?_⟩
  constructor
  · intro hz
    by_contra h
    have h1 := hz.1
    unfold calculateSubmergedProperties at h1
    rw [if_neg h] at h1
    have h2 : (0 : ℚ) < |totalVolume g W| := lt_of_lt_of_le EPSILON_pos (not_lt.mp h)
    simp_all
  · intro h
    unfold calculateSubmergedProperties
    rw [if_pos h]
    exact ⟨rfl, rfl⟩

/-- C8 witness: at the empty mesh under the identity transform the
accumulated volume is `0 < EPSILON` and the guard fires. -/
theorem C8_witness_empty_mesh :
    |totalVolume emptyGeo idAffine| < EPSILON ∧
    calculateSubmergedProperties emptyGeo idAffine = (0, (0 : Vec3)) := by
  have h : |totalVolume emptyGeo idAffine| < EPSILON := by
    norm_num [totalVolume, sumVol, clippedTris, Geometry.getTriangles, Geometry.faceCount,
      emptyGeo, EPSILON]
  exact ⟨h, (C8_epsilon_guard_dichotomy emptyGeo idAffine).1 h⟩

/-- C1 (amended): `calculateSubmergedProperties` indeed defaults to zero
volume and an origin centroid whenever its accumulated signed volume is
zero (the epsilon guard), but `calculateMeshProperties` does not: it
divides by the signed volume unconditionally, so a zero-volume mesh yields
a non-finite (NaN) centroid, modelled by `none`, not the origin. -/
theorem C1_zero_volume_centroid_default :
    (∀ (g : Geometry) (W : Affine), totalVolume g W = 0 →
      calculateSubmergedProperties g W = (0, (0 : Vec3))) ∧
    (∀ g : Geometry, meshSignedVolume g = 0 → (calculateMeshProperties g).2 = none) := by
  constructor
  · intro g W h
    unfold calculateSubmergedProperties
    rw [h, if_pos (by simpa using EPSILON_pos)]
  · intro g h
    unfold calculateMeshProperties
    rw [if_pos h]

/-- C1 counterexample: a degenerate flat triangle has computed volume `0`,
and `calculateMeshProperties` returns the non-finite centroid `none` (a
JavaScript NaN vector from `0/0`), not the origin the claim requires. -/
theorem C1_counterexample_integrate_zero_volume :
    (calculateMeshProperties flatTriangleGeo).1 = 0 ∧
    (calculateMeshProperties flatTriangleGeo).2 = none ∧
    (calculateMeshProperties flatTriangleGeo).2 ≠ some (0 : Vec3) := by
  have h2 : (calculateMeshProperties flatTriangleGeo).2 = none := by
    norm_num [calculateMeshProperties, meshSignedVolume, meshMoment, Geometry.getTriangles,
      Geometry.faceCount, Geometry.triAt, Geometry.vertexAt, flatTriangleGeo,
      List.range_succ, tetVolTerm, tetMomTerm, tetTerm]
  refine ⟨?_, h2, by rw [h2]; simp⟩
  norm_num [calculateMeshProperties, meshSignedVolume, Geometry.getTriangles,
    Geometry.faceCount, Geometry.triAt, Geometry.vertexAt, flatTriangleGeo,
    List.range_succ, tetVolTerm, tetTerm]

/-- C1 witness: the empty mesh has zero accumulated volume in both
functions; the clipper returns the guarded origin result and the integrator
returns the non-finite centroid. -/
theorem C1_witness_empty_mesh :
    totalVolume emptyGeo idAffine = 0 ∧ meshSignedVolume emptyGeo = 0 ∧
    calculateSubmergedProperties emptyGeo idAffine = (0, (0 : Vec3)) ∧
    (calculateMeshProperties emptyGeo).2 = none := by
  have h1 : totalVolume emptyGeo idAffine = 0 := by
    norm_num [totalVolume, sumVol, clippedTris, Geometry.getTriangles, Geometry.faceCount,
      emptyGeo]
  have h2 : meshSignedVolume emptyGeo = 0 := by
    norm_num [meshSignedVolume, Geometry.getTriangles, Geometry.faceCount, emptyGeo]
  exact ⟨h1, h2, C1_zero_volume_centroid_default.1 emptyGeo idAffine h1,
    C1_zero_volume_centroid_default.2 emptyGeo h2⟩

/-- C7: for every mesh and world transform under which no used vertex is
strictly below the plane, `calculateSubmergedProperties` returns zero
volume and the origin: every triangle is classified `countUnder = 0` and
contributes nothing. -/
theorem C7_above_surface_returns_zero (g : Geometry) (W : Affine)
    (habove : ∀ T ∈ g.getTriangles, 0 ≤ (W.apply T.1).z ∧ 0 ≤ (W.apply T.2.1).z ∧
      0 ≤ (W.apply T.2.2).z) :
    calculateSubmergedProperties g W = (0, (0 : Vec3)) := by
  have h : totalVolume g W = 0 := by
    unfold totalVolume
    rw [clippedTris_none_under g W habove]
    rfl
  unfold calculateSubmergedProperties
  rw [h, if_pos (by simpa using EPSILON_pos)]

/-- C7 witness: the cube lifted 10 units above the surface is entirely
above the plane and clips to nothing. -/
theorem C7_witness_lifted_cube :
    (∀ T ∈ cube2.getTriangles, 0 ≤ (liftAffine.apply T.1).z ∧
      0 ≤ (liftAffine.apply T.2.1).z ∧ 0 ≤ (liftAffine.apply T.2.2).z) ∧
    calculateSubmergedProperties cube2 liftAffine = (0, (0 : Vec3)) := by
  have hab : ∀ T ∈ cube2.getTriangles, 0 ≤ (liftAffine.apply T.1).z ∧
      0 ≤ (liftAffine.apply T.2.1).z ∧ 0 ≤ (liftAffine.apply T.2.2).z := by
    norm_num [Geometry.getTriangles, Geometry.faceCount, Geometry.triAt, Geometry.vertexAt,
      cube2, List.range_succ, liftAffine, Affine.apply, Mat3.mulVec, idMat3,
      List.forall_mem_cons]
  exact ⟨hab, C7_above_surface_returns_zero cube2 liftAffine hab⟩

/-- C3: for every closed mesh under a rigid (determinant-one affine) world
transform with all used vertices strictly below the plane, the clipper's
volume agrees with `calculateMeshProperties` within the clipping tolerance
(exactly, except when the epsilon guard rounds a sub-tolerance volume to
zero), and — whenever the volume is at least the tolerance — its world
centroid is exactly the mesh centroid mapped through the transform.  The
proof runs through `tetVolTerm_eq_volTerm`: the expanded determinant of the
integrator equals the `dot(p1, cross(p2, p3))/6` of the clipper's
accumulator. -/
theorem C3_submerged_matches_integrated (g : Geometry) (W : Affine)
    (hclosed : IsClosedMesh g.getTriangles) (hdet : W.lin.det = 1)
    (hsub : ∀ T ∈ g.getTriangles, (W.apply T.1).z < 0 ∧ (W.apply T.2.1).z < 0 ∧
      (W.apply T.2.2).z < 0) :
    |(calculateSubmergedProperties g W).1 - (calculateMeshProperties g).1| < EPSILON ∧
    (∀ c : Vec3, EPSILON ≤ (calculateMeshProperties g).1 →
      (calculateMeshProperties g).2 = some c →
      (calculateSubmergedProperties g W).2 = W.apply c) := by
  have hvol : totalVolume g W = meshSignedVolume g := by
    unfold totalVolume
    rw [clippedTris_all_under g W hsub, sumVol_map_affine W _ hclosed hdet,
      meshSignedVolume_eq_sumVol]
  have hmom : clipMoment g W =
      W.lin.mulVec (meshMoment g) + meshSignedVolume g • W.tr := by
    unfold clipMoment
    rw [clippedTris_all_under g W hsub, sumMom_map_affine W _ hclosed hdet,
      meshMoment_eq_sumMom, meshSignedVolume_eq_sumVol]
  constructor
  · have h1 : (calculateMeshProperties g).1 = |meshSignedVolume g| := rfl
    unfold calculateSubmergedProperties
    rw [hvol, h1]
    split_ifs with h
    · simpa using h
    · simp [EPSILON_pos]
  · intro c hge hsome
    have hge' : EPSILON ≤ |meshSignedVolume g| := hge
    have hsv : meshSignedVolume g ≠ 0 := by
      intro h0
      rw [h0] at hge'
      simp at hge'
      exact absurd hge' (not_le.mpr EPSILON_pos)
    have hc : c = (meshMoment g).sdiv (meshSignedVolume g) := by
      unfold calculateMeshProperties at hsome
      rw [if_neg hsv] at hsome
      exact (Option.some_injective _ hsome).symm
    unfold calculateSubmergedProperties
    rw [hvol, if_neg (not_lt.mpr hge'), hmom, hc]
    ext <;>
      simp only [Vec3.sdiv, Affine.apply, Mat3.mulVec, Vec3.add_x, Vec3.add_y, Vec3.add_z,
        Vec3.smul_x, Vec3.smul_y, Vec3.smul_z] <;>
      field_simp <;> ring

/-- C3 witness: the closed cube sunk 10 units below the surface.  Both
volumes are `8`, the mesh centroid is the origin, and the submerged
centroid is the transformed origin `(0, 0, -10)`. -/
theorem C3_witness_sunken_cube :
    IsClosedMesh cube2.getTriangles ∧ sinkAffine.lin.det = 1 ∧
    (∀ T ∈ cube2.getTriangles, (sinkAffine.apply T.1).z < 0 ∧
      (sinkAffine.apply T.2.1).z < 0 ∧ (sinkAffine.apply T.2.2).z < 0) ∧
    |(calculateSubmergedProperties cube2 sinkAffine).1 -
        (calculateMeshProperties cube2).1| < EPSILON ∧
    EPSILON ≤ (calculateMeshProperties cube2).1 ∧
    (calculateMeshProperties cube2).2 = some (0 : Vec3) ∧
    (calculateSubmergedProperties cube2 sinkAffine).2 = sinkAffine.apply (0 : Vec3) := by
  have hclosed : IsClosedMesh cube2.getTriangles := by decide
  have hdet : sinkAffine.lin.det = 1 := by norm_num [sinkAffine, Mat3.det, idMat3]
  have hsub : ∀ T ∈ cube2.getTriangles, (sinkAffine.apply T.1).z < 0 ∧
      (sinkAffine.apply T.2.1).z < 0 ∧ (sinkAffine.apply T.2.2).z < 0 := by
    norm_num [Geometry.getTriangles, Geometry.faceCount, Geometry.triAt, Geometry.vertexAt,
      cube2, List.range_succ, sinkAffine, Affine.apply, Mat3.mulVec, idMat3,
      List.forall_mem_cons]
  have hmesh : calculateMeshProperties cube2 = (8, some (0 : Vec3)) := by
    norm_num [calculateMeshProperties, meshSignedVolume, meshMoment, Geometry.getTriangles,
      Geometry.faceCount, Geometry.triAt, Geometry.vertexAt, cube2, List.range_succ,
      tetVolTerm, tetMomTerm, tetTerm, Vec3.sdiv, Vec3.ext_iff]
  have hthm := C3_submerged_matches_integrated cube2 sinkAffine hclosed hdet hsub
  refine ⟨hclosed, hdet, hsub, hthm.1, ?_, ?_, ?_⟩
  · rw [hmesh]; norm_num [EPSILON]
  · rw [hmesh]
  · exact hthm.2 0 (by rw [hmesh]; norm_num [EPSILON]) (by rw [hmesh])

/-- C4: the closed side-2 cube centred at the world origin under the
identity transform is half submerged: the clipper returns volume exactly
`4` and centroid exactly `(0, 0, -1/2)`, through the `countUnder = 1`,
`countUnder = 2` and `countUnder = 3` clipping branches. -/
theorem C4_half_submerged_cube :
    calculateSubmergedProperties cube2 idAffine = (4, ⟨0, 0, -(1 / 2)⟩) := by
  norm_num [calculateSubmergedProperties, totalVolume, clipMoment, clippedTris,
    Geometry.getTriangles, Geometry.faceCount, Geometry.triAt, Geometry.vertexAt,
    List.range_succ, clipTriangle, intersectPlane, sumVol, sumMom, volTerm, momTerm,
    dotCrossTerm, Vec3.dot, Vec3.cross, Vec3.sdiv, EPSILON, Affine.apply, Mat3.mulVec,
    idAffine, idMat3, cube2, Vec3.ext_iff]

/-- C2 (amended): a tick is skipped — pose untouched and finite — exactly
when the mesh is absent (`if (!meshGeometry ...) return`), and pose state
starts from zero at solver attach (the solver is remounted per mesh
identity, so an attaching mesh never inherits a prior pose).  A degenerate
zero-volume mesh, by contrast, does not skip the tick: see the
counterexample. -/
theorem C2_absent_mesh_skips_and_pose_resets :
    (∀ (rot : ℚ → ℚ → Mat3) (baseMass : ℚ) (baseCog : Option Vec3)
      (weights : List ExternalWeight) (waterDensity : ℚ) (p : Pose),
      solverTick rot none baseMass baseCog weights waterDensity p =
        ⟨some p.z, some p.rx, some p.ry⟩) ∧
    initialPose = ⟨0, 0, 0⟩ :=
  ⟨fun _ _ _ _ _ _ => rfl, rfl⟩

/-- C2 counterexample: with a degenerate (zero-volume) flat triangle
attached, `mass = volume * density = 0` and the base centroid is already
non-finite, so the tick is not skipped: it divides the moment sum by the
zero total mass and leaves `rx` (and `ry`) NaN — the pose is updated and
non-finite rather than the tick being skipped entirely. -/
theorem C2_counterexample_degenerate_mesh_not_skipped :
    (calculateMeshProperties flatTriangleGeo).1 = 0 ∧
    (solverTick rotId (some flatTriangleGeo)
        ((calculateMeshProperties flatTriangleGeo).1 * 200)
        (calculateMeshProperties flatTriangleGeo).2 [] 1025 initialPose).rx = none ∧
    solverTick rotId (some flatTriangleGeo)
        ((calculateMeshProperties flatTriangleGeo).1 * 200)
        (calculateMeshProperties flatTriangleGeo).2 [] 1025 initialPose ≠
      ⟨some initialPose.z, some initialPose.rx, some initialPose.ry⟩ := by
  have h : (solverTick rotId (some flatTriangleGeo)
      ((calculateMeshProperties flatTriangleGeo).1 * 200)
      (calculateMeshProperties flatTriangleGeo).2 [] 1025 initialPose).rx = none := by
    norm_num [solverTick, combinedCOGLocal, momentSumOf, totalMassOf,
      calculateMeshProperties, meshSignedVolume, meshMoment, Geometry.getTriangles,
      Geometry.faceCount, Geometry.triAt, Geometry.vertexAt, flatTriangleGeo,
      List.range_succ, tetVolTerm, tetMomTerm, tetTerm, initialPose]
  refine ⟨?_, h, fun heq => ?_⟩
  · norm_num [calculateMeshProperties, meshSignedVolume, Geometry.getTriangles,
      Geometry.faceCount, Geometry.triAt, Geometry.vertexAt, flatTriangleGeo,
      List.range_succ, tetVolTerm, tetTerm]
  · rw [heq] at h
    simp at h

/-- C6: in every inner iteration, `z` changes by
`clamp(netForceZ * 0.00005, -0.5, 0.5) * DAMPING_TRANSLATION`, `rx` by
minus `clamp(dy * 0.02, -0.05, 0.05) * DAMPING_ROTATION` and `ry` by plus
`clamp(dx * 0.02, -0.05, 0.05) * DAMPING_ROTATION`, with
`dx = cogWorld.x - cobWorld.x` and `dy = cogWorld.y - cobWorld.y`; a
positive `dy` strictly decreases the pitch `rx` and a positive `dx`
strictly increases the roll `ry`. -/
theorem C6_iteration_update_law (rot : ℚ → ℚ → Mat3) (g : Geometry)
    (waterDensity totalMass : ℚ) (cogLocal : Vec3) (p : Pose) :
    (solverIterate rot g waterDensity totalMass cogLocal p).z =
      p.z + clampQ (-0.5) 0.5
        (netForceZOf g (worldOf rot p) waterDensity totalMass * 0.00005)
        * DAMPING_TRANSLATION ∧
    (solverIterate rot g waterDensity totalMass cogLocal p).rx =
      p.rx - clampQ (-0.05) 0.05 (dyOf g (worldOf rot p) cogLocal * 0.02)
        * DAMPING_ROTATION ∧
    (solverIterate rot g waterDensity totalMass cogLocal p).ry =
      p.ry + clampQ (-0.05) 0.05 (dxOf g (worldOf rot p) cogLocal * 0.02)
        * DAMPING_ROTATION ∧
    (0 < dyOf g (worldOf rot p) cogLocal →
      (solverIterate rot g waterDensity totalMass cogLocal p).rx < p.rx) ∧
    (0 < dxOf g (worldOf rot p) cogLocal →
      p.ry < (solverIterate rot g waterDensity totalMass cogLocal p).ry) := by
  refine ⟨rfl, rfl, rfl, fun hdy => ?_, fun hdx => ?_⟩
  · have hpos : 0 < clampQ (-0.05) 0.05 (dyOf g (worldOf rot p) cogLocal * 0.02) :=
      clampQ_pos 0.05 _ (by norm_num) (by positivity)
    have hstep : 0 < clampQ (-0.05) 0.05 (dyOf g (worldOf rot p) cogLocal * 0.02)
        * DAMPING_ROTATION := by
      have hd : (0 : ℚ) < DAMPING_ROTATION := by norm_num [DAMPING_ROTATION]
      positivity
    show p.rx - _ < p.rx
    linarith
  · have hpos : 0 < clampQ (-0.05) 0.05 (dxOf g (worldOf rot p) cogLocal * 0.02) :=
      clampQ_pos 0.05 _ (by norm_num) (by positivity)
    have hstep : 0 < clampQ (-0.05) 0.05 (dxOf g (worldOf rot p) cogLocal * 0.02)
        * DAMPING_ROTATION := by
      have hd : (0 : ℚ) < DAMPING_ROTATION := by norm_num [DAMPING_ROTATION]
      positivity
    show p.ry < p.ry + _
    linarith

/-- C6 witness: with no submerged geometry and a combined COG at
`(1, 1, 0)`, both offsets are `1 > 0`, so one iteration strictly decreases
`rx` and strictly increases `ry`. -/
theorem C6_witness_positive_offsets :
    0 < dyOf emptyGeo (worldOf rotId initialPose) ⟨1, 1, 0⟩ ∧
    0 < dxOf emptyGeo (worldOf rotId initialPose) ⟨1, 1, 0⟩ ∧
    (solverIterate rotId emptyGeo 1025 1 ⟨1, 1, 0⟩ initialPose).rx < initialPose.rx ∧
    initialPose.ry < (solverIterate rotId emptyGeo 1025 1 ⟨1, 1, 0⟩ initialPose).ry := by
  have hdy : 0 < dyOf emptyGeo (worldOf rotId initialPose) ⟨1, 1, 0⟩ := by
    norm_num [dyOf, calculateSubmergedProperties, totalVolume, clipMoment, clippedTris,
      sumVol, sumMom, Geometry.getTriangles, Geometry.faceCount, emptyGeo, EPSILON,
      worldOf, rotId, initialPose, Affine.apply, Mat3.mulVec, idMat3]
  have hdx : 0 < dxOf emptyGeo (worldOf rotId initialPose) ⟨1, 1, 0⟩ := by
    norm_num [dxOf, calculateSubmergedProperties, totalVolume, clipMoment, clippedTris,
      sumVol, sumMom, Geometry.getTriangles, Geometry.faceCount, emptyGeo, EPSILON,
      worldOf, rotId, initialPose, Affine.apply, Mat3.mulVec, idMat3]
  exact ⟨hdy, hdx,
    (C6_iteration_update_law rotId emptyGeo 1025 1 ⟨1, 1, 0⟩ initialPose).2.2.2.1 hdy,
    (C6_iteration_update_law rotId emptyGeo 1025 1 ⟨1, 1, 0⟩ initialPose).2.2.2.2 hdx⟩

/-- C9 (amended): each inner iteration changes `z` by at most
`0.5 * 0.1 = 1/20` and each of `rx`, `ry` by at most `0.05 * 0.05 = 1/400`
in absolute value, however extreme the force or offset; and — provided the
combined mass is nonzero, so the unguarded `divideScalar(totalMass)` stays
finite — a whole tick maps a finite pose to a finite pose.  With a zero
combined mass the division by zero makes the rotation state non-finite:
see the counterexample. -/
theorem C9_iteration_bounds_and_finiteness :
    (∀ (rot : ℚ → ℚ → Mat3) (g : Geometry) (waterDensity totalMass : ℚ)
      (cogLocal : Vec3) (p : Pose),
      |(solverIterate rot g waterDensity totalMass cogLocal p).z - p.z| ≤ 1 / 20 ∧
      |(solverIterate rot g waterDensity totalMass cogLocal p).rx - p.rx| ≤ 1 / 400 ∧
      |(solverIterate rot g waterDensity totalMass cogLocal p).ry - p.ry| ≤ 1 / 400) ∧
    (∀ (rot : ℚ → ℚ → Mat3) (g : Geometry) (baseMass : ℚ) (cogLocal : Vec3)
      (weights : List ExternalWeight) (waterDensity : ℚ) (p : Pose),
      totalMassOf baseMass weights ≠ 0 →
      ∃ q : Pose, solverTick rot (some g) baseMass (some cogLocal) weights waterDensity p =
        ⟨some q.z, some q.rx, some q.ry⟩) := by
  constructor
  · intro rot g waterDensity totalMass cogLocal p
    refine ⟨?_, ?_, ?_⟩
    · have hz : (solverIterate rot g waterDensity totalMass cogLocal p).z - p.z =
          clampQ (-0.5) 0.5
            (netForceZOf g (worldOf rot p) waterDensity totalMass * 0.00005)
            * DAMPING_TRANSLATION := by
        simp [solverIterate]
      rw [hz, abs_mul]
      have h1 := abs_clampQ_le 0.5
        (netForceZOf g (worldOf rot p) waterDensity totalMass * 0.00005) (by norm_num)
      have h2 : |DAMPING_TRANSLATION| = 0.1 := by norm_num [DAMPING_TRANSLATION]
      rw [h2]
      nlinarith [abs_nonneg (clampQ (-0.5) 0.5
        (netForceZOf g (worldOf rot p) waterDensity totalMass * 0.00005))]
    · have hr : (solverIterate rot g waterDensity totalMass cogLocal p).rx - p.rx =
          -(clampQ (-0.05) 0.05 (dyOf g (worldOf rot p) cogLocal * 0.02)
            * DAMPING_ROTATION) := by
        simp [solverIterate]
      rw [hr, abs_neg, abs_mul]
      have h1 := abs_clampQ_le 0.05 (dyOf g (worldOf rot p) cogLocal * 0.02) (by norm_num)
      have h2 : |DAMPING_ROTATION| = 0.05 := by norm_num [DAMPING_ROTATION]
      rw [h2]
      nlinarith [abs_nonneg (clampQ (-0.05) 0.05 (dyOf g (worldOf rot p) cogLocal * 0.02))]
    · have hr : (solverIterate rot g waterDensity totalMass cogLocal p).ry - p.ry =
          clampQ (-0.05) 0.05 (dxOf g (worldOf rot p) cogLocal * 0.02)
            * DAMPING_ROTATION := by
        simp [solverIterate]
      rw [hr, abs_mul]
      have h1 := abs_clampQ_le 0.05 (dxOf g (worldOf rot p) cogLocal * 0.02) (by norm_num)
      have h2 : |DAMPING_ROTATION| = 0.05 := by norm_num [DAMPING_ROTATION]
      rw [h2]
      nlinarith [abs_nonneg (clampQ (-0.05) 0.05 (dxOf g (worldOf rot p) cogLocal * 0.02))]
  · intro rot g baseMass cogLocal weights waterDensity p h
    have hcc : combinedCOGLocal baseMass (some cogLocal) weights =
        some ((baseMass • cogLocal +
          (weights.map fun w => w.mass • w.position).sum).sdiv
            (totalMassOf baseMass weights)) := by
      unfold combinedCOGLocal momentSumOf
      simp only [Option.map_some']
      rw [if_neg h]
    refine ⟨Nat.iterate
      (solverIterate rot g waterDensity (totalMassOf baseMass weights)
        ((baseMass • cogLocal +
          (weights.map fun w => w.mass • w.position).sum).sdiv
            (totalMassOf baseMass weights))) MAX_ITERATIONS p, ?_⟩
    simp only [solverTick, hcc]

/-- C9 counterexample: a perfectly finite input — the closed cube with
zero base mass, finite base COG and no weights — makes `totalMass = 0`;
the `momentSum.divideScalar(totalMass)` division by zero then drives `rx`
(starting at the finite value `0`) to NaN in the very first iteration, so
the pose does not stay finite and the `rx` change is not bounded by
`1/400`. -/
theorem C9_counterexample_zero_total_mass :
    initialPose.rx = 0 ∧
    (solverTick rotId (some cube2) 0 (some 0) [] 1025 initialPose).rx = none := by
  norm_num [solverTick, combinedCOGLocal, momentSumOf, totalMassOf, initialPose]

/-- C9 witness: with combined mass `1` the tick stays finite. -/
theorem C9_witness_nonzero_mass :
    totalMassOf 1 [] ≠ 0 ∧
    (∃ q : Pose, solverTick rotId (some cube2) 1 (some 0) [] 1025 initialPose =
      ⟨some q.z, some q.rx, some q.ry⟩) := by
  have h : totalMassOf 1 ([] : List ExternalWeight) ≠ 0 := by norm_num [totalMassOf]
  exact ⟨h, C9_iteration_bounds_and_finiteness.2 rotId cube2 1 0 [] 1025 initialPose h⟩
